import Mathlib

/-!
Verification of the `ginprom` Prometheus instrumentation middleware
(package `ginprom`, file `main.go` of the GinMetric repository).

The Go source is shallowly embedded: the per-request record step of
`PromMiddleware` becomes a pure function from an exchange (request fields,
final writer status, final writer size) to the list of registry updates it
performs; `regexp.MatchString` is abstracted as a parameter returning
`Except Unit Bool` (compile failure is `Except.error`); a Go nil-pointer
dereference (the `r.URL == nil` branch of `calcRequestSize`, and a nil
`EndpointLabelMappingFn`) is modelled as `Option.none` / a `panicked` flag.
The `int` accumulator of `calcRequestSize` is embedded at two levels:
`calcRequestSize` idealizes it as an unbounded integer, while
`calcRequestSize64` performs every `size += ...` as Go's wrapping 64-bit
signed addition (an explicit reduction modulo `2 ^ 64`); the two agree up
to one final reduction (`calcRequestSize64_agrees`), hence exactly
whenever the total fits in `int64`.
-/

namespace GinProm

/-- Model of `*url.URL`: the raw path (`URL.Path`) and the rendering
returned by `URL.String()`. -/
structure URL where
  path : String
  full : String
deriving DecidableEq, Repr

/-- One entry of the `http.Header` map: a name and its list of values. -/
structure Header where
  name : String
  values : List String
deriving DecidableEq, Repr

/-- The fields of `*http.Request` read by the package.  `url = none`
models a nil `r.URL` pointer. -/
structure Request where
  url : Option URL
  method : String
  proto : String
  headers : List Header
  host : String
  contentLength : Int
deriving DecidableEq, Repr

/-- The part of `*gin.Context` the middleware reads after `c.Next()`
returns: the request, the final `c.Writer.Status()` and the final
`c.Writer.Size()` (`-1` when no body was written). -/
structure GinContext where
  request : Request
  writerStatus : Int
  writerSize : Int
deriving DecidableEq, Repr

/-- Byte contribution of a single header entry: the length of the name
plus the lengths of all its values (the two nested loops of
`calcRequestSize`). -/
def headerSize (h : Header) : Nat :=
  h.name.length + (h.values.map String.length).sum

/-- Byte contribution of the whole header map. -/
def headersSize (hs : List Header) : Nat :=
  (hs.map headerSize).sum

/-- Embedding of `calcRequestSize(r *http.Request) float64`.

The source reads

  size := 0
  if r.URL == nil \x7b size = len(r.URL.String()) \x7d

so the only branch that would add the URL length dereferences a nil
`r.URL` (a runtime panic), modelled here as `none`.  When `r.URL` is
non-nil that branch is skipped and `size` stays `0`.  The remaining
statements add the method, protocol, header and host lengths, and the
declared content length whenever it differs from the `-1` sentinel.

This version idealizes the Go `int` accumulator as an unbounded integer;
`calcRequestSize64` below is the machine-precision embedding that wraps
at every accumulation step, and `calcRequestSize64_agrees` proves the
two agree up to one final two's-complement reduction, so this version is
exact whenever the total fits in `int64`. -/
def calcRequestSize (r : Request) : Option Int :=
  match r.url with
  | none => none
  | some _ =>
    let size : Int := 0
    let size := size + r.method.length
    let size := size + r.proto.length
    let size := size + (headersSize r.headers : Int)
    let size := size + r.host.length
    let size := if r.contentLength ≠ -1 then size + r.contentLength else size
    some size

/-- Two's-complement reduction of an integer into the signed 64-bit
range `[-9223372036854775808, 9223372036854775808)`: the value a Go
`int`/`int64` holds after overflow.  `9223372036854775808 = 2 ^ 63` and
`18446744073709551616 = 2 ^ 64`. -/
def wrap64 (x : Int) : Int :=
  (x + 9223372036854775808) % 18446744073709551616 - 9223372036854775808

/-- Go 64-bit signed addition: `a + b` with wraparound on overflow, the
semantics of each `size += ...` statement in `calcRequestSize`. -/
def addInt64 (a b : Int) : Int := wrap64 (a + b)

/-- The inner loop `for _, value := range values` of `calcRequestSize`:
one wrapping `size += len(value)` per value. -/
def addHeaderValues (size : Int) (values : List String) : Int :=
  values.foldl (fun s v => addInt64 s (v.length : Int)) size

/-- One iteration of the outer header loop: `size += len(name)` followed
by the value loop, each addition wrapping. -/
def addHeader (size : Int) (h : Header) : Int :=
  addHeaderValues (addInt64 size (h.name.length : Int)) h.values

/-- The whole header loop of `calcRequestSize` with wrapping additions. -/
def addHeaders (size : Int) (hs : List Header) : Int :=
  hs.foldl addHeader size

/-- Machine-precision embedding of `calcRequestSize`: identical to
`calcRequestSize` except that every `size += ...` is the wrapping 64-bit
addition Go performs on `int`, including `size += int(r.ContentLength)`. -/
def calcRequestSize64 (r : Request) : Option Int :=
  match r.url with
  | none => none
  | some _ =>
    let size : Int := 0
    let size := addInt64 size r.method.length
    let size := addInt64 size r.proto.length
    let size := addHeaders size r.headers
    let size := addInt64 size r.host.length
    let size := if r.contentLength ≠ -1 then addInt64 size r.contentLength
                else size
    some size

/-- Abstract model of `regexp.MatchString(pattern, s)`: `Except.error ()`
when the pattern fails to compile, `Except.ok b` with the match result
otherwise.  Go guarantees the compile outcome depends only on the
pattern, but no theorem below needs that assumption. -/
def MatchStringFn : Type := String → String → Except Unit Bool

/-- Endpoint label mapping: `RequestLabelMappingFn func(c *gin.Context) string`.
The result is `none` when the mapping would dereference a nil pointer. -/
def RequestLabelMappingFn : Type := GinContext → Option String

/-- Embedding of `PromOpts`.  `EndpointLabelMappingFn = none` models the
nil function value. -/
structure PromOpts where
  ExcludeRegexStatus : String
  ExcludeRegexEndpoint : String
  ExcludeRegexMethod : String
  EndpointLabelMappingFn : Option RequestLabelMappingFn

/-- The default endpoint mapping installed by `NewDefaultOpts` and by the
nil-function fallback of `PromMiddleware`: `c.Request.URL.Path`
(a nil `URL` would panic, hence `Option.map`). -/
def defaultEndpointFn : RequestLabelMappingFn :=
  fun c => c.request.url.map URL.path

/-- Embedding of `NewDefaultOpts()`. -/
def NewDefaultOpts : PromOpts :=
  { ExcludeRegexStatus := ""
    ExcludeRegexEndpoint := ""
    ExcludeRegexMethod := ""
    EndpointLabelMappingFn := some defaultEndpointFn }

/-- Embedding of `(po *PromOpts) checkLabel(label, pattern string) bool`:
an empty pattern passes; a compile error passes; otherwise pass iff the
pattern did not match. -/
def checkLabel (ms : MatchStringFn) (label pattern : String) : Bool :=
  if pattern = "" then true
  else
    match ms pattern label with
    | Except.error _ => true
    | Except.ok matched => !matched

/-- Embedding of `strconv.Itoa` applied to the status code. -/
def itoa (i : Int) : String := toString i

/-- One update of the Prometheus registry performed by the middleware. -/
inductive MetricUpdate where
  | incReqCount (lvs : List String)
  | observeDuration (lvs : List String) (seconds : Int)
  | observeReqSize (lvs : List String) (bytes : Int)
  | observeRespSize (lvs : List String) (bytes : Int)
deriving DecidableEq, Repr

/-- The label tuple an update is keyed by. -/
def updateLabels : MetricUpdate → List String
  | MetricUpdate.incReqCount lvs => lvs
  | MetricUpdate.observeDuration lvs _ => lvs
  | MetricUpdate.observeReqSize lvs _ => lvs
  | MetricUpdate.observeRespSize lvs _ => lvs

/-- Outcome of one run of the middleware body: the registry updates it
performed, in order, and whether it panicked (nil dereference) before
finishing. -/
structure RecordResult where
  updates : List MetricUpdate
  panicked : Bool
deriving DecidableEq, Repr

/-- The defaulting done by `PromMiddleware` before returning its closure:
nil options become `NewDefaultOpts()`, and a nil
`EndpointLabelMappingFn` is replaced by the raw-path default. -/
def resolveOpts : Option PromOpts → PromOpts
  | none => NewDefaultOpts
  | some o =>
    match o.EndpointLabelMappingFn with
    | none => { o with EndpointLabelMappingFn := some defaultEndpointFn }
    | some _ => o

/-- Calling the configured endpoint mapping; a nil function value or a
nil dereference inside it yields `none`. -/
def applyEndpointFn (o : PromOpts) (c : GinContext) : Option String :=
  match o.EndpointLabelMappingFn with
  | none => none
  | some f => f c

/-- Embedding of the closure body returned by `PromMiddleware`, run after
`c.Next()` has completed, for already-resolved options.  `elapsed` stands
for `time.Since(start).Seconds()`.  Mirrors the source order: derive the
three labels, evaluate the three `checkLabel` calls, return early when
suppressed, normalize a negative writer size to `0`, then perform the
four updates (a panic inside `calcRequestSize` aborts after the first
two, as in the source, where it is evaluated as the third argument). -/
def promRecord (ms : MatchStringFn) (o : PromOpts) (elapsed : Int)
    (c : GinContext) : RecordResult :=
  let status := itoa c.writerStatus
  match applyEndpointFn o c with
  | none => { updates := [], panicked := true }
  | some endpoint =>
    let method := c.request.method
    let lvs := [status, endpoint, method]
    let ok := checkLabel ms status o.ExcludeRegexStatus
        && checkLabel ms endpoint o.ExcludeRegexEndpoint
        && checkLabel ms method o.ExcludeRegexMethod
    if !ok then
      { updates := [], panicked := false }
    else
      let respSize : Int := if c.writerSize < 0 then 0 else c.writerSize
      match calcRequestSize c.request with
      | none =>
        { updates := [MetricUpdate.incReqCount lvs,
                      MetricUpdate.observeDuration lvs elapsed]
          panicked := true }
      | some reqSize =>
        { updates := [MetricUpdate.incReqCount lvs,
                      MetricUpdate.observeDuration lvs elapsed,
                      MetricUpdate.observeReqSize lvs reqSize,
                      MetricUpdate.observeRespSize lvs respSize]
          panicked := false }

/-- Embedding of `PromMiddleware(promOpts *PromOpts)` followed by one run
of the returned handler on context `c`. -/
def promMiddleware (ms : MatchStringFn) (promOpts : Option PromOpts)
    (elapsed : Int) (c : GinContext) : RecordResult :=
  promRecord ms (resolveOpts promOpts) elapsed c

/-- One iteration of the `recordUpTime` loop body:
`uptime.WithLabelValues().Inc()` adds exactly `1` to the no-label uptime
counter. -/
def recordUpTimeStep (counter : Nat) : Nat := counter + 1

/-- Value of the uptime counter after `n` ticks of the 1-second
`time.Tick` loop, starting from the counter's initial value `0`.  The
loop takes no input from the request path, so the value depends on the
tick count alone. -/
def uptimeAfter : Nat → Nat
  | 0 => 0
  | n + 1 => recordUpTimeStep (uptimeAfter n)

/-! ### Fixtures for concrete witnesses -/

/-- A matcher whose patterns all compile and never match. -/
def wMsOk : MatchStringFn := fun _ _ => Except.ok false

/-- A matcher whose patterns all compile and always match. -/
def wMsMatch : MatchStringFn := fun _ _ => Except.ok true

/-- A matcher whose patterns all fail to compile. -/
def wMsErr : MatchStringFn := fun _ _ => Except.error ()

/-- A typical GET exchange: `GET /index`, no headers, unknown body
length, 200 with a 17-byte body. -/
def wCtx : GinContext :=
  { request :=
      { url := some { path := "/index", full := "/index" }
        method := "GET"
        proto := "HTTP/1.1"
        headers := []
        host := "example.com"
        contentLength := -1 }
    writerStatus := 200
    writerSize := 17 }

/-- The same request aborted with 403 and no body written: the writer
reports size `-1`. -/
def wCtxNoBody : GinContext :=
  { request := wCtx.request, writerStatus := 403, writerSize := -1 }

/-- Options with no suppression and a nil mapping function. -/
def wOptsNoFn : PromOpts :=
  { ExcludeRegexStatus := ""
    ExcludeRegexEndpoint := ""
    ExcludeRegexMethod := ""
    EndpointLabelMappingFn := none }

/-- Options with a status suppression pattern and a nil mapping function. -/
def wOptsStatus : PromOpts :=
  { ExcludeRegexStatus := "^4"
    ExcludeRegexEndpoint := ""
    ExcludeRegexMethod := ""
    EndpointLabelMappingFn := none }

/-! ### Helper lemmas -/

/-- `resolveOpts` never changes the three exclusion patterns. -/
theorem resolveOpts_some_fields (o : PromOpts) :
    (resolveOpts (some o)).ExcludeRegexStatus = o.ExcludeRegexStatus ∧
    (resolveOpts (some o)).ExcludeRegexEndpoint = o.ExcludeRegexEndpoint ∧
    (resolveOpts (some o)).ExcludeRegexMethod = o.ExcludeRegexMethod := by
  rcases h : o.EndpointLabelMappingFn with _ | f <;>
    simp [resolveOpts, h]

/-- A nonempty pattern that compiles and matches makes `checkLabel` fail. -/
theorem checkLabel_matched (ms : MatchStringFn) (label pattern : String)
    (hp : pattern ≠ "") (hm : ms pattern label = Except.ok true) :
    checkLabel ms label pattern = false := by
  simp [checkLabel, hp, hm]

/-- An empty pattern makes `checkLabel` pass. -/
theorem checkLabel_empty (ms : MatchStringFn) (label : String) :
    checkLabel ms label "" = true := by
  simp [checkLabel]

/-- Wrapping depends only on the residue: reducing the left summand
first changes nothing, so a chain of wrapping additions equals one
reduction of the unbounded sum. -/
theorem wrap64_wrap64_add (x y : Int) :
    wrap64 (wrap64 x + y) = wrap64 (x + y) := by
  unfold wrap64
  omega

/-- Wrapping addition onto an already-reduced accumulator. -/
theorem addInt64_wrap64 (x y : Int) :
    addInt64 (wrap64 x) y = wrap64 (x + y) := wrap64_wrap64_add x y

/-- Wrapping addition onto the initial `0` accumulator. -/
theorem wrap64_zero_add (y : Int) : addInt64 0 y = wrap64 y := by
  simp [addInt64]

/-- The wrapping value loop equals one reduction of the unbounded sum of
the value lengths. -/
theorem addHeaderValues_wrap64 (values : List String) (x : Int) :
    addHeaderValues (wrap64 x) values =
      wrap64 (x + ((values.map String.length).sum : Int)) := by
  induction values generalizing x with
  | nil => simp [addHeaderValues]
  | cons v vs ih =>
    rw [show addHeaderValues (wrap64 x) (v :: vs) =
        addHeaderValues (addInt64 (wrap64 x) (v.length : Int)) vs from rfl,
      addInt64_wrap64, ih]
    congr 1
    simp [List.sum_cons]
    ring

/-- One wrapping header iteration equals one reduction of the unbounded
header contribution. -/
theorem addHeader_wrap64 (h : Header) (x : Int) :
    addHeader (wrap64 x) h = wrap64 (x + (headerSize h : Int)) := by
  rw [addHeader, addInt64_wrap64, addHeaderValues_wrap64]
  congr 1
  simp [headerSize]
  ring

/-- The wrapping header loop equals one reduction of the unbounded
total header contribution. -/
theorem addHeaders_wrap64 (hs : List Header) (x : Int) :
    addHeaders (wrap64 x) hs = wrap64 (x + (headersSize hs : Int)) := by
  induction hs generalizing x with
  | nil => simp [addHeaders, headersSize]
  | cons h t ih =>
    rw [show addHeaders (wrap64 x) (h :: t) =
        addHeaders (addHeader (wrap64 x) h) t from rfl,
      addHeader_wrap64, ih]
    congr 1
    simp [headersSize]
    ring

/-- For a present URL, the machine-precision size is the two's-complement
reduction of the unbounded sum of the structural parts. -/
theorem calcRequestSize64_eq_wrap64 (r : Request) (u : URL)
    (hu : r.url = some u) :
    calcRequestSize64 r =
      some (wrap64 ((r.method.length : Int) + r.proto.length
        + (headersSize r.headers : Int) + r.host.length
        + (if r.contentLength ≠ -1 then r.contentLength else 0))) := by
  simp only [calcRequestSize64, hu]
  rw [wrap64_zero_add, addInt64_wrap64, addHeaders_wrap64, addInt64_wrap64]
  rcases em (r.contentLength = -1) with hc | hc
  · simp [hc]
  · rw [if_pos hc, if_pos hc, addInt64_wrap64]

/-- The machine-precision embedding agrees with the idealized one up to
one final two's-complement reduction; in particular they are equal
whenever the unbounded total lies in the signed 64-bit range. -/
theorem calcRequestSize64_agrees (r : Request) :
    calcRequestSize64 r = (calcRequestSize r).map wrap64 := by
  rcases hu : r.url with _ | u
  · simp [calcRequestSize, calcRequestSize64, hu]
  · rw [calcRequestSize64_eq_wrap64 r u hu]
    simp only [calcRequestSize, hu]
    rcases em (r.contentLength = -1) with hc | hc
    · simp [hc]
    · simp [hc]

/-- The overflow-free side condition of the amended non-negativity claim
is necessary: a `GET` request with a present URL, empty remaining fields
and declared content length `9223372036854775807` (the largest `int64`,
non-negative) overflows the accumulator, and the code returns the
wrapped, negative size `2 - 2 ^ 63`. -/
theorem calcRequestSize64_overflow_negative :
    calcRequestSize64
      { url := some { path := "/", full := "/" }
        method := "GET"
        proto := ""
        headers := []
        host := ""
        contentLength := 9223372036854775807 } =
      some (-9223372036854775806) := by rfl

/-! ### Claim theorems -/

/-- C3: for every label value (including the empty string), `checkLabel`
passes when the pattern is the empty string, and a pattern whose
compilation fails (the matcher returns an error) behaves identically to
the empty pattern: the check passes. -/
theorem checkLabel_empty_or_bad_pattern_passes
    (ms : MatchStringFn) (label pattern : String) :
    checkLabel ms label "" = true ∧
    (ms pattern label = Except.error () →
      checkLabel ms label pattern = checkLabel ms label "") := by
  refine ⟨checkLabel_empty ms label, fun herr => ?_⟩
  by_cases hp : pattern = ""
  · rw [hp]
  · simp [checkLabel, hp, herr]

/-- C3 witness: at an always-failing matcher, an empty label and the
non-compiling pattern `"("`, both parts of the claim hold concretely. -/
theorem checkLabel_empty_or_bad_pattern_passes_witness :
    checkLabel wMsErr "" "" = true ∧
    checkLabel wMsErr "" "(" = checkLabel wMsErr "" "" :=
  ⟨(checkLabel_empty_or_bad_pattern_passes wMsErr "" "(").1,
   (checkLabel_empty_or_bad_pattern_passes wMsErr "" "(").2 rfl⟩

/-- C4 counterexample: the claim that the result is non-negative for
every possible content-length value fails on the code (here in its
machine-precision embedding): a request with empty method, protocol,
headers and host and a declared content length of `-2` (not the `-1`
sentinel) yields a size of `-2`. -/
theorem calcRequestSize64_negative_counterexample :
    calcRequestSize64
      { url := some { path := "", full := "" }
        method := ""
        proto := ""
        headers := []
        host := ""
        contentLength := -2 } = some (-2) ∧
    ¬ (0 : Int) ≤ -2 := by
  constructor
  · rfl
  · decide

/-- C4 (amended): whenever the declared content length is `-1` (the
unknown sentinel) or non-negative, and the unbounded total of the
structural parts fits below `2 ^ 63` (no `int64` overflow; see
`calcRequestSize64_overflow_negative` for why this proviso is needed),
every defined result of the machine-precision `calcRequestSize64` is
non-negative; and the `-1` sentinel contributes `0` to the sum (the
request sizes with content length `-1` and `0` agree, with no proviso). -/
theorem calcRequestSize64_nonneg (r : Request) (v : Int)
    (hcl : -1 ≤ r.contentLength)
    (hbound : (r.method.length : Int) + r.proto.length
        + (headersSize r.headers : Int) + r.host.length
        + (if r.contentLength ≠ -1 then r.contentLength else 0)
      < 9223372036854775808)
    (hv : calcRequestSize64 r = some v) :
    0 ≤ v ∧
    calcRequestSize64 { r with contentLength := -1 } =
      calcRequestSize64 { r with contentLength := 0 } := by
  constructor
  · rcases hu : r.url with _ | u
    · simp [calcRequestSize64, hu] at hv
    · rw [calcRequestSize64_eq_wrap64 r u hu] at hv
      simp only [Option.some.injEq] at hv
      rcases em (r.contentLength = -1) with hc | hc
      · simp only [hc] at hv hbound
        simp at hv hbound
        unfold wrap64 at hv
        omega
      · rw [if_pos hc] at hv hbound
        unfold wrap64 at hv
        omega
  · rcases hu : r.url with _ | u
    · simp [calcRequestSize64, hu]
    · rw [calcRequestSize64_eq_wrap64 _ u rfl,
        calcRequestSize64_eq_wrap64 _ u rfl]
      simp

/-- C4 witness: the amended theorem at the `GET /index` fixture, whose
content length is the `-1` sentinel, whose total `22` is far below
`2 ^ 63`, and whose machine-precision size is `22`. -/
theorem calcRequestSize64_nonneg_witness :
    -1 ≤ wCtx.request.contentLength ∧
    ((wCtx.request.method.length : Int) + wCtx.request.proto.length
        + (headersSize wCtx.request.headers : Int) + wCtx.request.host.length
        + (if wCtx.request.contentLength ≠ -1 then wCtx.request.contentLength
           else 0)
      < 9223372036854775808) ∧
    calcRequestSize64 wCtx.request = some 22 ∧
    (0 ≤ (22 : Int) ∧
      calcRequestSize64 { wCtx.request with contentLength := -1 } =
        calcRequestSize64 { wCtx.request with contentLength := 0 }) :=
  ⟨by decide, by decide, rfl,
    calcRequestSize64_nonneg wCtx.request 22 (by decide) (by decide) rfl⟩

/-- C5: for every request whose URL reference is present, the result of
`calcRequestSize` is exactly the sum of the method, protocol, header and
host lengths plus the content-length contribution — an expression making
no reference to the URL, so the URL length never contributes to a
returned size.  (The only branch adding a URL length is the absent-URL
branch, which dereferences the nil URL and returns no size at all.) -/
theorem calcRequestSize_url_never_contributes (r : Request) (u : URL)
    (hu : r.url = some u) :
    calcRequestSize r =
      some ((r.method.length + r.proto.length + (headersSize r.headers : Int)
          + r.host.length)
        + (if r.contentLength ≠ -1 then r.contentLength else 0)) := by
  simp only [calcRequestSize, hu]
  split <;> simp

/-- C5 witness: at the `GET /index` fixture the returned size is the
URL-free sum `3 + 8 + 0 + 11 + 0 = 22`. -/
theorem calcRequestSize_url_never_contributes_witness :
    wCtx.request.url = some { path := "/index", full := "/index" } ∧
    calcRequestSize wCtx.request =
      some ((wCtx.request.method.length + wCtx.request.proto.length
          + (headersSize wCtx.request.headers : Int) + wCtx.request.host.length)
        + (if wCtx.request.contentLength ≠ -1 then wCtx.request.contentLength
           else 0)) :=
  ⟨rfl, calcRequestSize_url_never_contributes wCtx.request
    { path := "/index", full := "/index" } rfl⟩

/-- C10: for every request whose URL reference is present,
`calcRequestSize` is well-defined: the absent-reference branch (the only
one that would dereference the URL) is not taken, so a size is returned. -/
theorem calcRequestSize_total_on_present_url (r : Request)
    (h : r.url.isSome) :
    (calcRequestSize r).isSome := by
  rcases hu : r.url with _ | u
  · rw [hu] at h
    simp at h
  · simp [calcRequestSize, hu]

/-- C10 witness: the `GET /index` fixture has a present URL and a
defined size. -/
theorem calcRequestSize_total_on_present_url_witness :
    wCtx.request.url.isSome = true ∧
    (calcRequestSize wCtx.request).isSome = true :=
  ⟨rfl, calcRequestSize_total_on_present_url wCtx.request rfl⟩

/-- `promMiddleware` is the record step on the resolved options. -/
theorem promMiddleware_eq (ms : MatchStringFn) (po : Option PromOpts)
    (elapsed : Int) (c : GinContext) :
    promMiddleware ms po elapsed c =
      promRecord ms (resolveOpts po) elapsed c := rfl

/-- Every run of the record step performs either no updates, or the first
two updates followed by a panic in `calcRequestSize`, or all four
updates; in the latter two cases all updates carry the label tuple
`[status, endpoint, method]`. -/
theorem promRecord_shape (ms : MatchStringFn) (o : PromOpts)
    (elapsed : Int) (c : GinContext) :
    (promRecord ms o elapsed c).updates = [] ∨
    ∃ endpoint, applyEndpointFn o c = some endpoint ∧
      ((promRecord ms o elapsed c).updates =
          [MetricUpdate.incReqCount
              [itoa c.writerStatus, endpoint, c.request.method],
            MetricUpdate.observeDuration
              [itoa c.writerStatus, endpoint, c.request.method] elapsed] ∨
        ∃ reqSize, calcRequestSize c.request = some reqSize ∧
          (promRecord ms o elapsed c).updates =
            [MetricUpdate.incReqCount
                [itoa c.writerStatus, endpoint, c.request.method],
              MetricUpdate.observeDuration
                [itoa c.writerStatus, endpoint, c.request.method] elapsed,
              MetricUpdate.observeReqSize
                [itoa c.writerStatus, endpoint, c.request.method] reqSize,
              MetricUpdate.observeRespSize
                [itoa c.writerStatus, endpoint, c.request.method]
                (if c.writerSize < 0 then 0 else c.writerSize)]) := by
  rcases hA : applyEndpointFn o c with _ | endpoint
  · left
    simp [promRecord, hA]
  · by_cases hok : (checkLabel ms (itoa c.writerStatus) o.ExcludeRegexStatus
        && checkLabel ms endpoint o.ExcludeRegexEndpoint
        && checkLabel ms c.request.method o.ExcludeRegexMethod) = true
    · rcases hC : calcRequestSize c.request with _ | reqSize
      · exact Or.inr ⟨endpoint, rfl, Or.inl (by simp [promRecord, hA, hok, hC])⟩
      · exact Or.inr ⟨endpoint, rfl,
          Or.inr ⟨reqSize, rfl, by simp [promRecord, hA, hok, hC]⟩⟩
    · left
      simp only [Bool.not_eq_true] at hok
      simp [promRecord, hA, hok]

/-- C1: with all three exclusion patterns empty, a completed request
whose endpoint label and request size are defined produces exactly one
count increment and exactly one observation each on the duration,
request-size and response-size series, all four keyed by the same
`[status, endpoint, method]` tuple derived from the request. -/
theorem promMiddleware_no_suppression_records_once
    (ms : MatchStringFn) (o : PromOpts) (elapsed : Int) (c : GinContext)
    (endpoint : String) (reqSize : Int)
    (hs : o.ExcludeRegexStatus = "")
    (he : o.ExcludeRegexEndpoint = "")
    (hm : o.ExcludeRegexMethod = "")
    (hf : applyEndpointFn (resolveOpts (some o)) c = some endpoint)
    (hr : calcRequestSize c.request = some reqSize) :
    promMiddleware ms (some o) elapsed c =
      { updates := [MetricUpdate.incReqCount
            [itoa c.writerStatus, endpoint, c.request.method],
          MetricUpdate.observeDuration
            [itoa c.writerStatus, endpoint, c.request.method] elapsed,
          MetricUpdate.observeReqSize
            [itoa c.writerStatus, endpoint, c.request.method] reqSize,
          MetricUpdate.observeRespSize
            [itoa c.writerStatus, endpoint, c.request.method]
            (if c.writerSize < 0 then 0 else c.writerSize)]
        panicked := false } := by
  obtain ⟨f1, f2, f3⟩ := resolveOpts_some_fields o
  rw [promMiddleware_eq]
  simp [promRecord, hf, hr, f1, f2, f3, hs, he, hm, checkLabel_empty]

/-- C1 witness: `GET /index` returning 200 with a 17-byte body under the
no-suppression options records exactly the four updates, all labelled
`[200, /index, GET]`. -/
theorem promMiddleware_no_suppression_records_once_witness :
    wOptsNoFn.ExcludeRegexStatus = "" ∧
    applyEndpointFn (resolveOpts (some wOptsNoFn)) wCtx = some "/index" ∧
    calcRequestSize wCtx.request = some 22 ∧
    promMiddleware wMsOk (some wOptsNoFn) 7 wCtx =
      { updates := [MetricUpdate.incReqCount [itoa 200, "/index", "GET"],
          MetricUpdate.observeDuration [itoa 200, "/index", "GET"] 7,
          MetricUpdate.observeReqSize [itoa 200, "/index", "GET"] 22,
          MetricUpdate.observeRespSize [itoa 200, "/index", "GET"] 17]
        panicked := false } :=
  ⟨rfl, rfl, rfl,
    promMiddleware_no_suppression_records_once wMsOk wOptsNoFn 7 wCtx
      "/index" 22 rfl rfl rfl rfl rfl⟩

/-- C2: a request whose derived status, endpoint or method label matches
the corresponding configured (nonempty, compiling) suppression pattern
causes zero registry updates: the middleware returns having modified no
series. -/
theorem promMiddleware_suppressed_updates_nothing
    (ms : MatchStringFn) (o : PromOpts) (elapsed : Int) (c : GinContext)
    (endpoint : String)
    (hf : applyEndpointFn (resolveOpts (some o)) c = some endpoint)
    (h :
      (o.ExcludeRegexStatus ≠ "" ∧
        ms o.ExcludeRegexStatus (itoa c.writerStatus) = Except.ok true) ∨
      (o.ExcludeRegexEndpoint ≠ "" ∧
        ms o.ExcludeRegexEndpoint endpoint = Except.ok true) ∨
      (o.ExcludeRegexMethod ≠ "" ∧
        ms o.ExcludeRegexMethod c.request.method = Except.ok true)) :
    promMiddleware ms (some o) elapsed c =
      { updates := [], panicked := false } := by
  obtain ⟨f1, f2, f3⟩ := resolveOpts_some_fields o
  rw [promMiddleware_eq]
  rcases h with ⟨hp, hmt⟩ | ⟨hp, hmt⟩ | ⟨hp, hmt⟩ <;>
    simp [promRecord, hf, f1, f2, f3, checkLabel_matched ms _ _ hp hmt]

/-- C2 witness: with the status pattern `^4` configured and a matcher
that reports a match on the derived status label, the middleware run on
the 200 exchange performs zero updates. -/
theorem promMiddleware_suppressed_updates_nothing_witness :
    applyEndpointFn (resolveOpts (some wOptsStatus)) wCtx = some "/index" ∧
    wOptsStatus.ExcludeRegexStatus ≠ "" ∧
    wMsMatch wOptsStatus.ExcludeRegexStatus (itoa wCtx.writerStatus) =
      Except.ok true ∧
    promMiddleware wMsMatch (some wOptsStatus) 7 wCtx =
      { updates := [], panicked := false } :=
  ⟨rfl, by decide, rfl,
    promMiddleware_suppressed_updates_nothing wMsMatch wOptsStatus 7 wCtx
      "/index" rfl (Or.inl ⟨by decide, rfl⟩)⟩

/-- C6: every response-size observation performed by the middleware is
non-negative, and when the writer-reported size is at most `0`
(including the `-1` no-body sentinel) the observed value is exactly `0`. -/
theorem promMiddleware_resp_size_nonneg
    (ms : MatchStringFn) (po : Option PromOpts) (elapsed : Int)
    (c : GinContext) (lvs : List String) (b : Int)
    (hmem : MetricUpdate.observeRespSize lvs b ∈
      (promMiddleware ms po elapsed c).updates) :
    0 ≤ b ∧ (c.writerSize ≤ 0 → b = 0) := by
  rw [promMiddleware_eq] at hmem
  rcases promRecord_shape ms (resolveOpts po) elapsed c with
    h0 | ⟨ep, hA, h2 | ⟨reqSize, hC, h4⟩⟩
  · rw [h0] at hmem
    simp at hmem
  · rw [h2] at hmem
    simp at hmem
  · rw [h4] at hmem
    simp at hmem
    obtain ⟨hlvs, hb⟩ := hmem
    subst hb
    constructor
    · split <;> omega
    · intro hle
      split <;> omega

/-- C6 witness: `GET /index` aborted with 403 and no body written
(writer size `-1`) observes exactly `0` on the response-size series. -/
theorem promMiddleware_resp_size_nonneg_witness :
    MetricUpdate.observeRespSize ["403", "/index", "GET"] 0 ∈
      (promMiddleware wMsOk none 7 wCtxNoBody).updates ∧
    0 ≤ (0 : Int) ∧ (0 : Int) = 0 :=
  ⟨by decide,
    (promMiddleware_resp_size_nonneg wMsOk none 7 wCtxNoBody
      ["403", "/index", "GET"] 0 (by decide)).1,
    (promMiddleware_resp_size_nonneg wMsOk none 7 wCtxNoBody
      ["403", "/index", "GET"] 0 (by decide)).2 (by decide)⟩

/-- C7: every registry update a run performs carries the label tuple
`[decimal status, configured endpoint mapping result, verbatim method]`,
and the default mapping (installed when no mapping is supplied) is the
raw request path. -/
theorem promMiddleware_label_tuple
    (ms : MatchStringFn) (po : Option PromOpts) (elapsed : Int)
    (c : GinContext) (endpoint : String)
    (hf : applyEndpointFn (resolveOpts po) c = some endpoint) :
    (∀ u ∈ (promMiddleware ms po elapsed c).updates,
        updateLabels u = [itoa c.writerStatus, endpoint, c.request.method]) ∧
    applyEndpointFn (resolveOpts none) c = c.request.url.map URL.path := by
  refine ⟨?_, rfl⟩
  rcases promRecord_shape ms (resolveOpts po) elapsed c with
    h0 | ⟨ep, hA, h2 | ⟨reqSize, hC, h4⟩⟩
  · intro u hu
    rw [promMiddleware_eq, h0] at hu
    simp at hu
  · have hep : ep = endpoint := Option.some_inj.mp (hA.symm.trans hf)
    subst hep
    intro u hu
    rw [promMiddleware_eq, h2] at hu
    simp at hu
    rcases hu with h | h <;> subst h <;> rfl
  · have hep : ep = endpoint := Option.some_inj.mp (hA.symm.trans hf)
    subst hep
    intro u hu
    rw [promMiddleware_eq, h4] at hu
    simp at hu
    rcases hu with h | h | h | h <;> subst h <;> rfl

/-- C7 witness: on the `GET /index` exchange with nil options, the count
increment carries labels `[itoa 200, "/index", "GET"]`, and `"/index"` is
the raw path produced by the default mapping. -/
theorem promMiddleware_label_tuple_witness :
    MetricUpdate.incReqCount ["200", "/index", "GET"] ∈
      (promMiddleware wMsOk none 7 wCtx).updates ∧
    updateLabels (MetricUpdate.incReqCount ["200", "/index", "GET"]) =
      [itoa wCtx.writerStatus, "/index", wCtx.request.method] :=
  ⟨by decide,
    (promMiddleware_label_tuple wMsOk none 7 wCtx "/index" rfl).1
      (MetricUpdate.incReqCount ["200", "/index", "GET"]) (by decide)⟩

/-- C9: nil options behave identically to `NewDefaultOpts()`, and options
whose endpoint mapping function is nil behave identically to the same
options with the raw-path default mapping installed, for every request. -/
theorem promMiddleware_nil_defaults
    (ms : MatchStringFn) (elapsed : Int) (c : GinContext) (o : PromOpts)
    (hfn : o.EndpointLabelMappingFn = none) :
    promMiddleware ms none elapsed c =
      promMiddleware ms (some NewDefaultOpts) elapsed c ∧
    promMiddleware ms (some o) elapsed c =
      promMiddleware ms
        (some { o with EndpointLabelMappingFn := some defaultEndpointFn })
        elapsed c := by
  constructor
  · rfl
  · have h1 : resolveOpts (some o) =
        { o with EndpointLabelMappingFn := some defaultEndpointFn } := by
      simp [resolveOpts, hfn]
    have h2 : resolveOpts
        (some { o with EndpointLabelMappingFn := some defaultEndpointFn }) =
        { o with EndpointLabelMappingFn := some defaultEndpointFn } := by
      simp [resolveOpts]
    rw [promMiddleware_eq, promMiddleware_eq, h1, h2]

/-- C9 witness: both equivalences at the `GET /index` exchange and the
no-suppression options with nil mapping function. -/
theorem promMiddleware_nil_defaults_witness :
    wOptsNoFn.EndpointLabelMappingFn = none ∧
    promMiddleware wMsOk none 7 wCtx =
      promMiddleware wMsOk (some NewDefaultOpts) 7 wCtx ∧
    promMiddleware wMsOk (some wOptsNoFn) 7 wCtx =
      promMiddleware wMsOk
        (some { wOptsNoFn with EndpointLabelMappingFn := some defaultEndpointFn })
        7 wCtx :=
  ⟨rfl, promMiddleware_nil_defaults wMsOk 7 wCtx wOptsNoFn rfl⟩

/-- C8: each tick of the uptime loop increments the no-label uptime
counter by exactly 1 (never decreases, never skips), so the counter,
which takes no input from the request path, is strictly monotone in the
tick count. -/
theorem uptime_counter_one_per_tick :
    (∀ n, uptimeAfter (n + 1) = uptimeAfter n + 1) ∧
    StrictMono uptimeAfter := by
  have key : ∀ n, uptimeAfter n = n := by
    intro n
    induction n with
    | zero => rfl
    | succ k ih => simp [uptimeAfter, recordUpTimeStep, ih]
  exact ⟨fun n => rfl, fun a b hab => by simpa [key] using hab⟩

end GinProm
